import Mathlib

/-!
Shallow embedding of the `wrap` package of Data-Corruption/lmdb-go
(the coordination/lifecycle layer over LMDB), covering:

* the error sentinels (`ErrDuplicateDbName`, `ErrDbNameNotFound`,
  `ErrDBClosed`, `ErrEmptyKey`);
* the `DB` facade (`New`, `Read`, `Write`, `Delete`, `Update`, `View`,
  `Close`, `validateArgs`);
* the write-coordinator worker loop as a small-step machine with many
  producers and one sequential consumer.

The storage engine (LMDB itself) is the external collaborator: its data is
modelled as an association list from (DBI, key) to value, its fallible
configuration calls (`NewEnv`, `SetMaxDBs`, `SetMapSize`, `Open`,
`ReaderCheck`, `CreateDBI`) are driven by an `Oracle` that fixes the outcome
of each call, and each embedded function additionally returns the list of
engine-level events it performed so that "no engine resource was touched"
claims are statable.
-/

namespace Wrap

/-- Byte strings (Go `[]byte`); a nil slice and an empty slice both embed to
`[]`, which is exactly how `validateArgs` treats them
(`(key == nil) || (len(key) == 0)`). -/
abbrev Bytes := List Nat

/-- Engine-level (LMDB) error values, opaque to the wrap layer apart from
`notFound` (MDB_NOTFOUND). `other` stands for any other engine errno. -/
inductive EngineErr where
  | notFound : EngineErr
  | other : Nat → EngineErr
deriving DecidableEq, Repr

/-- Errors surfaced by the wrap layer: the four sentinels declared at the top
of the package, plus pass-through engine errors. -/
inductive Err where
  | duplicateDbName : Err
  | dbNameNotFound : Err
  | dbClosed : Err
  | emptyKey : Err
  | engine : EngineErr → Err
deriving DecidableEq, Repr

/-- Engine-level events performed by the wrap layer, recorded so that claims
about resource allocation and transaction starts can be stated. -/
inductive Event where
  | mkdirAll : Event
  | newEnv : Event
  | setMaxDBs : Nat → Event
  | setMapSize : Nat → Event
  | openEnv : Event
  | readerCheck : Event
  | createDBI : String → Event
  | envClose : Event
  | startWorker : Event
  | viewTxn : Event
  | updateTxn : Event
deriving DecidableEq, Repr

/-- The engine's key-value content: (DBI, key) to value association list. -/
abbrev Store := List ((Nat × Bytes) × Bytes)

/-- `txn.Get`: look a key up in a named database; absent keys surface the
engine's not-found errno. -/
def storeGet (s : Store) (dbi : Nat) (key : Bytes) : Except Err Bytes :=
  match s.find? (fun e => e.1 == (dbi, key)) with
  | some e => .ok e.2
  | none => .error (.engine .notFound)

/-- `txn.Put` with no flags: insert or overwrite. -/
def storePut (s : Store) (dbi : Nat) (key value : Bytes) : Except Err Store :=
  .ok (((dbi, key), value) :: s.filter (fun e => !(e.1 == (dbi, key))))

/-- `txn.Del`: remove a key; deleting an absent key surfaces the engine's
not-found errno (surfaced, not masked). -/
def storeDel (s : Store) (dbi : Nat) (key : Bytes) : Except Err Store :=
  if (s.find? (fun e => e.1 == (dbi, key))).isSome then
    .ok (s.filter (fun e => !(e.1 == (dbi, key))))
  else
    .error (.engine .notFound)

/-- `lmdb.TxnOp` specialised to write transactions: caller-supplied work on
the store that either succeeds with the mutated store or fails with an
error that is passed through unchanged. -/
abbrev TxnOp := Store → Except Err Store

/-- The environment handle's state: whether `env.Close()` has not yet been
called, and the committed data. -/
structure EnvState where
  isOpen : Bool
  data : Store
deriving Repr

/-- `env.Update` / `env.UpdateLocked`: run the operation inside one write
transaction — commit the mutated store on success (returning `none`), abort
on failure leaving the data untouched and passing the operation's own error
through unchanged. -/
def EnvState.update (env : EnvState) (op : TxnOp) : EnvState × Option Err :=
  match op env.data with
  | .ok s => ({ env with data := s }, none)
  | .error e => (env, some e)

/-- The worker loop body of `New`, iterated over a drained queue:
`for op := range uOps { op.res <- env.UpdateLocked(op.op) }`.
Executes the queued operations strictly in order, one at a time, delivering
one outcome per request. -/
def execOps (env : EnvState) : List TxnOp → EnvState × List (Option Err)
  | [] => (env, [])
  | op :: rest =>
    let (env1, r) := env.update op
    let (env2, rs) := execOps env1 rest
    (env2, r :: rs)

/-- The `DB` struct of the wrap package. `uOpsCap` is the capacity the
pending-writes channel was created with; `pending` the requests sitting in
that channel; `closed` the atomic closed flag; `closeDone` whether
`closeOnce` has fired; `envCloseCount` counts calls to `env.Close()` so that
"teardown executes exactly once" is statable. -/
structure DB where
  env : EnvState
  dbs : List (String × Nat)
  uOpsCap : Nat
  pending : List TxnOp
  closed : Bool
  closeDone : Bool
  envCloseCount : Nat

/-- Go map lookup on the registry association list. -/
def lookupDBI (reg : List (String × Nat)) (name : String) : Option Nat :=
  match reg with
  | [] => none
  | (n, d) :: rest => if n = name then some d else lookupDBI rest name

/-- The duplicate scan at the top of `New`: a `seen` set walked over
`dbNames`, reporting whether any name repeats. -/
def hasDuplicate : List String → Bool
  | [] => false
  | n :: rest => rest.contains n || hasDuplicate rest

/-- Outcomes of the engine's fallible calls during `New`, fixed up front:
`none` / `.ok` means the call succeeds. `createDBI` gives the outcome of
`txn.CreateDBI name` per name. -/
structure Oracle where
  mkdirErr : Option Err
  newEnvErr : Option Err
  setMaxDBsErr : Option Err
  setMapSizeErr : Option Err
  openErr : Option Err
  readerCheck : Except Err Nat
  createDBI : String → Except Err Nat

/-- `const MapSize = 10 * 1 << 30` (Go: `*` and `<<` associate left, so this
is `(10 * 1) << 30`). -/
def MapSize : Nat := 10 * 1 <<< 30

/-- The handle-opening loop of `New`: for each name in input order, one write
transaction running `txn.CreateDBI`, recording the handle in the registry;
stops at the first failure. Returns the registry (or the failing
transaction's error) and the createDBI events attempted. -/
def openDBIs (o : Oracle) : List String → Except Err (List (String × Nat)) × List Event
  | [] => (.ok [], [])
  | n :: rest =>
    match o.createDBI n with
    | .error e => (.error e, [.createDBI n])
    | .ok dbi =>
      let (r, evs) := openDBIs o rest
      (r.map (fun l => (n, dbi) :: l), .createDBI n :: evs)

/-- `wrap.New(dirPath, dbNames)`: duplicate check, `os.MkdirAll`, create and
configure the environment handle (`NewEnv`, `SetMaxDBs(len(dbNames))`,
`SetMapSize(MapSize)`, `Open`), `ReaderCheck`, per-name create-or-open write
transactions, then start the worker. Mirrors the Go control flow branch for
branch; the second component of the Go result (the stale-reader count) and
the error are returned alongside the optional `DB`, together with the trace
of engine-level events performed. -/
def New (o : Oracle) (dbNames : List String) :
    (Option DB × Nat × Option Err) × List Event :=
  if hasDuplicate dbNames then
    ((none, 0, some .duplicateDbName), [])
  else
    match o.mkdirErr with
    | some e => ((none, 0, some e), [.mkdirAll])
    | none =>
      match o.newEnvErr with
      | some e => ((none, 0, some e), [.mkdirAll, .newEnv])
      | none =>
        match o.setMaxDBsErr with
        | some e => ((none, 0, some e), [.mkdirAll, .newEnv, .setMaxDBs dbNames.length])
        | none =>
          match o.setMapSizeErr with
          | some e =>
            ((none, 0, some e),
              [.mkdirAll, .newEnv, .setMaxDBs dbNames.length, .setMapSize MapSize])
          | none =>
            match o.openErr with
            | some e =>
              ((none, 0, some e),
                [.mkdirAll, .newEnv, .setMaxDBs dbNames.length, .setMapSize MapSize,
                  .openEnv])
            | none =>
              match o.readerCheck with
              | .error e =>
                ((none, 0, some e),
                  [.mkdirAll, .newEnv, .setMaxDBs dbNames.length, .setMapSize MapSize,
                    .openEnv, .readerCheck, .envClose])
              | .ok staleReaders =>
                match openDBIs o dbNames with
                | (.error e, evs) =>
                  ((none, staleReaders, some e),
                    [.mkdirAll, .newEnv, .setMaxDBs dbNames.length, .setMapSize MapSize,
                      .openEnv, .readerCheck] ++ evs ++ [.envClose])
                | (.ok reg, evs) =>
                  ((some
                      { env := { isOpen := true, data := [] }
                        dbs := reg
                        uOpsCap := 1000
                        pending := []
                        closed := false
                        closeDone := false
                        envCloseCount := 0 },
                    staleReaders, none),
                    [.mkdirAll, .newEnv, .setMaxDBs dbNames.length, .setMapSize MapSize,
                      .openEnv, .readerCheck] ++ evs ++ [.startWorker])

/-- `db.validateArgs(dbName, key)`: empty name is reported as name-not-found
before anything else; then a nil/empty key is reported as empty-key; only
then is the registry consulted. -/
def DB.validateArgs (db : DB) (dbName : String) (key : Bytes) : Except Err Nat :=
  if dbName = "" then .error .dbNameNotFound
  else if key = [] then .error .emptyKey
  else
    match lookupDBI db.dbs dbName with
    | some dbi => .ok dbi
    | none => .error .dbNameNotFound

/-- `db.Update(op)`: fail fast with `ErrDBClosed` when the closed flag is
set; otherwise enqueue the request and block until the worker delivers
`env.UpdateLocked(op)`'s outcome. In this sequential embedding the caller's
request is executed right away (the queued requests ahead of it are
accounted for separately by `execOps` and the worker machine below). Returns
the updated facade state, the delivered error, and the engine events. -/
def DB.Update (db : DB) (op : TxnOp) : (DB × Option Err) × List Event :=
  if db.closed then ((db, some .dbClosed), [])
  else
    let (env1, r) := db.env.update op
    (({ db with env := env1 }, r), [.updateTxn])

/-- `db.View(op)`: fail fast with `ErrDBClosed` when the closed flag is set;
otherwise run the operation directly as a read-only transaction (the store
is passed in, nothing is committed). -/
def DB.View (db : DB) (op : Store → Except Err Unit) : Option Err × List Event :=
  if db.closed then (some .dbClosed, [])
  else
    match op db.env.data with
    | .ok _ => (none, [.viewTxn])
    | .error e => (some e, [.viewTxn])

/-- `db.Read(dbName, key)`: validate the arguments, then run `txn.Get`
inside `db.env.View`. Note the source checks no closed flag here: after
validation it goes straight to the environment handle. -/
def DB.Read (db : DB) (dbName : String) (key : Bytes) :
    Except Err Bytes × List Event :=
  match db.validateArgs dbName key with
  | .error e => (.error e, [])
  | .ok dbi => (storeGet db.env.data dbi key, [.viewTxn])

/-- `db.Write(dbName, key, value)`: validate, then submit a `txn.Put`
operation through `db.Update`. -/
def DB.Write (db : DB) (dbName : String) (key value : Bytes) :
    (DB × Option Err) × List Event :=
  match db.validateArgs dbName key with
  | .error e => ((db, some e), [])
  | .ok dbi => db.Update (fun s => storePut s dbi key value)

/-- `db.Delete(dbName, key)`: validate, then submit a `txn.Del` operation
through `db.Update`. -/
def DB.Delete (db : DB) (dbName : String) (key : Bytes) :
    (DB × Option Err) × List Event :=
  match db.validateArgs dbName key with
  | .error e => ((db, some e), [])
  | .ok dbi => db.Update (fun s => storeDel s dbi key)

/-- `db.Close()`: guarded by `closeOnce`, so the body runs only when no
earlier `Close` has (`closeDone` is the once-flag). The body sets the atomic
closed flag, closes the request channel (no new requests; modelled by the
drained `pending := []`), waits for the worker to drain every queued request
(`execOps` delivers one outcome per request), then calls `env.Close()`. -/
def DB.Close (db : DB) : DB :=
  if db.closeDone then db
  else
    let (env1, _) := execOps db.env db.pending
    { db with
      closed := true
      pending := []
      env := { env1 with isOpen := false }
      closeDone := true
      envCloseCount := db.envCloseCount + 1 }

/-!
The write coordinator as a small-step machine. Producers are the callers of
`Update` / `Write` / `Delete`; they append requests (identified by a number)
to the FIFO channel `queue`. The single consumer is the worker goroutine of
`New`: its loop body dequeues the head request, executes it, and delivers
the outcome before looping, so it can only start a request when none is
running. `enqueued` and `executed` are the histories, in order, of what was
put on the channel and what the worker started executing.
-/

/-- A snapshot of the coordinator: channel content, the request the worker
is currently executing (a list that holds at most one element in any
reachable state), and the two histories. -/
structure WState where
  queue : List Nat
  running : List Nat
  enqueued : List Nat
  executed : List Nat
deriving DecidableEq, Repr

/-- Interleaved steps: any producer may enqueue at any time (the channel is
FIFO, so a send appends); the worker, being one sequential loop, dequeues
the head only when it is not executing anything, and finishes what it is
executing. -/
inductive WStep : WState → WState → Prop where
  | enqueue (s : WState) (i : Nat) :
      WStep s { s with queue := s.queue ++ [i], enqueued := s.enqueued ++ [i] }
  | start (s : WState) (i : Nat) (rest : List Nat) :
      s.running = [] → s.queue = i :: rest →
      WStep s { s with queue := rest, running := [i], executed := s.executed ++ [i] }
  | finish (s : WState) (i : Nat) :
      s.running = [i] → WStep s { s with running := [] }

/-- The coordinator's initial state: empty channel, idle worker. -/
def WInit : WState := { queue := [], running := [], enqueued := [], executed := [] }

/-- Reachability under any interleaving of producer and worker steps. -/
inductive WReaches : WState → WState → Prop where
  | refl (s : WState) : WReaches s s
  | step {s t u : WState} : WReaches s t → WStep t u → WReaches s u

/-- Modelled from the spec: the direct write-transaction call that the
queue-based `Update` path is claimed to be equivalent to — "the outcome
delivered is precisely the result of running the operation inside a write
transaction against the Environment Handle (commit on success, abort on
operation failure, with the operation's error passed through unchanged)".
This is the specification side of the refinement claim; the code side is
`EnvState.update` / `execOps`. -/
def specWriteTxn (env : EnvState) (op : TxnOp) : EnvState × Option Err :=
  match op env.data with
  | .ok s => ({ env with data := s }, none)
  | .error e => (env, some e)

/-- A concrete live `DB` (as produced by a successful `New` with database
"a" registered under handle 1), used by witnesses. -/
def dbW : DB :=
  { env := { isOpen := true, data := [] }
    dbs := [("a", 1)]
    uOpsCap := 1000
    pending := []
    closed := false
    closeDone := false
    envCloseCount := 0 }

/-- A concrete `DB` after `Close()` has run: closed flag set, once-guard
fired, environment handle closed, with database "a" registered under handle
1 and one stored pair. -/
def closedDB : DB :=
  { env := { isOpen := false, data := [((1, [107]), [118])] }
    dbs := [("a", 1)]
    uOpsCap := 1000
    pending := []
    closed := true
    closeDone := true
    envCloseCount := 1 }

/-- An oracle on which every engine call succeeds. -/
def oOk : Oracle :=
  { mkdirErr := none
    newEnvErr := none
    setMaxDBsErr := none
    setMapSizeErr := none
    openErr := none
    readerCheck := .ok 0
    createDBI := fun _ => .ok 1 }

/-- An oracle on which `SetMaxDBs` fails (errno 22) and every other call
would succeed. -/
def oSetMaxFails : Oracle :=
  { oOk with setMaxDBsErr := some (.engine (.other 22)) }

/-- An oracle on which `ReaderCheck` fails and every other call succeeds. -/
def oReaderFails : Oracle :=
  { oOk with readerCheck := .error (.engine (.other 5)) }

/-- An oracle on which `ReaderCheck` reclaims 3 stale readers and every
`CreateDBI` transaction fails (errno 7). -/
def oCreateFails : Oracle :=
  { oOk with readerCheck := .ok 3, createDBI := fun _ => .error (.engine (.other 7)) }

/-! ## Claim theorems -/

/-- C10: validation checks run in a fixed order — an empty database name
returns `ErrDbNameNotFound` regardless of the key, and a non-empty name
with an empty key returns `ErrEmptyKey` even when that name is not
registered, in `validateArgs` and hence in `Read`, `Write` and `Delete`. -/
theorem validation_order_fixed (db : DB) (name : String) (key value : Bytes)
    (hname : name ≠ "") :
    db.validateArgs "" key = .error .dbNameNotFound ∧
    db.validateArgs name [] = .error .emptyKey ∧
    db.Read "" key = (.error .dbNameNotFound, []) ∧
    (db.Write "" key value).1.2 = some .dbNameNotFound ∧
    (db.Delete "" key).1.2 = some .dbNameNotFound ∧
    db.Read name [] = (.error .emptyKey, []) ∧
    (db.Write name [] value).1.2 = some .emptyKey ∧
    (db.Delete name [] ).1.2 = some .emptyKey := by
  simp [DB.validateArgs, DB.Read, DB.Write, DB.Delete, hname]

/-- C10 witness: the validation order at a concrete live DB whose registry
holds only "a": the unregistered non-empty name "x" with an empty key gets
`ErrEmptyKey`, and the empty name gets `ErrDbNameNotFound` whatever the key. -/
theorem validation_order_fixed_witness :
    ("x" ≠ "") ∧
    (dbW.validateArgs "" [107] = .error .dbNameNotFound ∧
    dbW.validateArgs "x" [] = .error .emptyKey ∧
    dbW.Read "" [107] = (.error .dbNameNotFound, []) ∧
    (dbW.Write "" [107] [118]).1.2 = some .dbNameNotFound ∧
    (dbW.Delete "" [107]).1.2 = some .dbNameNotFound ∧
    dbW.Read "x" [] = (.error .emptyKey, []) ∧
    (dbW.Write "x" [] [118]).1.2 = some .emptyKey ∧
    (dbW.Delete "x" [] ).1.2 = some .emptyKey) :=
  ⟨by decide, validation_order_fixed dbW "x" [107] [118] (by decide)⟩

/-- C7: `Read`, `Write`, `Delete` with an unregistered database name (and a
non-empty key) return `ErrDbNameNotFound`, and with an empty key (and a
non-empty name) return `ErrEmptyKey`, in each case with an empty engine
trace: no engine transaction is started. -/
theorem validate_rejects_before_engine (db : DB) (name : String)
    (key value : Bytes) (hkey : key ≠ [])
    (hreg : lookupDBI db.dbs name = none) (hname : name ≠ "") :
    (db.Read name key = (.error .dbNameNotFound, []) ∧
     db.Write name key value = ((db, some .dbNameNotFound), []) ∧
     db.Delete name key = ((db, some .dbNameNotFound), [])) ∧
    (db.Read name [] = (.error .emptyKey, []) ∧
     db.Write name [] value = ((db, some .emptyKey), []) ∧
     db.Delete name [] = ((db, some .emptyKey), [])) := by
  simp [DB.Read, DB.Write, DB.Delete, DB.validateArgs, hkey, hreg, hname]

/-- C7 witness: at a live DB registering only "a", the calls
`Read("missing-db", k)` / `Write` / `Delete` get `ErrDbNameNotFound`, the
empty-key variants get `ErrEmptyKey`, all with no engine transaction. -/
theorem validate_rejects_before_engine_witness :
    (([107] : Bytes) ≠ [] ∧ lookupDBI dbW.dbs "missing-db" = none ∧
      "missing-db" ≠ "") ∧
    ((dbW.Read "missing-db" [107] = (.error .dbNameNotFound, []) ∧
      dbW.Write "missing-db" [107] [118] = ((dbW, some .dbNameNotFound), []) ∧
      dbW.Delete "missing-db" [107] = ((dbW, some .dbNameNotFound), [])) ∧
     (dbW.Read "missing-db" [] = (.error .emptyKey, []) ∧
      dbW.Write "missing-db" [] [118] = ((dbW, some .emptyKey), []) ∧
      dbW.Delete "missing-db" [] = ((dbW, some .emptyKey), []))) :=
  ⟨⟨by decide, by decide, by decide⟩,
    validate_rejects_before_engine dbW "missing-db" [107] [118]
      (by decide) (by decide) (by decide)⟩

/-- C6: when the name list contains a repeated name, `New` returns
`ErrDuplicateDbName` with an empty engine trace — no directory creation, no
environment handle, no engine call of any kind. -/
theorem new_duplicate_names_no_allocation (o : Oracle) (names : List String)
    (h : hasDuplicate names = true) :
    New o names = ((none, 0, some .duplicateDbName), []) := by
  simp [New, h]

/-- C6 witness: opening with names ["a", "a"] on an all-successful oracle
fails with the duplicate-name error and performs no engine event. -/
theorem new_duplicate_names_no_allocation_witness :
    hasDuplicate ["a", "a"] = true ∧
    New oOk ["a", "a"] = ((none, 0, some .duplicateDbName), []) :=
  ⟨by decide, new_duplicate_names_no_allocation oOk ["a", "a"] (by decide)⟩

/-- C1 (code bug): after `Close()` the closed flag is set and `Update`,
`View`, `Write`, `Delete` all fail fast with `ErrDBClosed`, but `Read` has
no closed-state check: with valid arguments it proceeds to run a read-only
transaction against the already-closed environment handle and returns its
result instead of `ErrDBClosed`, contradicting the spec's closed-state
guard (and its invariant that no operation executes against the Environment
Handle after it has been closed). -/
theorem read_after_close_reaches_engine :
    closedDB.closed = true ∧
    closedDB.env.isOpen = false ∧
    (closedDB.Update (fun s => .ok s)).1.2 = some .dbClosed ∧
    (closedDB.View (fun _ => .ok ())).1 = some .dbClosed ∧
    (closedDB.Write "a" [107] [118]).1.2 = some .dbClosed ∧
    (closedDB.Delete "a" [107]).1.2 = some .dbClosed ∧
    closedDB.Read "a" [107] = (.ok [118], [.viewTxn]) ∧
    (closedDB.Read "a" [107]).1 ≠ .error .dbClosed := by
  refine ⟨rfl, rfl, rfl, rfl, by decide, by decide, rfl, ?_⟩
  exact fun h => Except.noConfusion h

/-- C2 counterexample: on an oracle where `SetMaxDBs` fails, `New` aborts
with that error after the environment handle was created, yet never calls
`env.Close()` — the handle is leaked, refuting "if the handle was created,
it is closed before New returns". -/
theorem new_setMaxDBs_failure_leaks_handle :
    (New oSetMaxFails ["a"]).1 = (none, 0, some (.engine (.other 22))) ∧
    Event.newEnv ∈ (New oSetMaxFails ["a"]).2 ∧
    Event.envClose ∉ (New oSetMaxFails ["a"]).2 := by
  refine ⟨rfl, ?_, ?_⟩ <;> decide

/-- C2 amended: only for failures after a successful `Open` — a failing
`ReaderCheck` or a failing per-database create-or-open transaction — does
`New` close the environment handle before returning; construction aborts
with no usable DB and a non-nil error. (On `NewEnv`/`SetMaxDBs`/
`SetMapSize`/`Open` failure the created handle is not closed.) -/
theorem new_post_open_failure_closes_handle (o : Oracle) (names : List String)
    (hdup : hasDuplicate names = false)
    (hmk : o.mkdirErr = none) (hnew : o.newEnvErr = none)
    (hmax : o.setMaxDBsErr = none) (hmap : o.setMapSizeErr = none)
    (hopen : o.openErr = none)
    (hfail : (∃ e, o.readerCheck = .error e) ∨
      (∃ e, (openDBIs o names).1 = .error e)) :
    (New o names).1.1 = none ∧ (New o names).1.2.2 ≠ none ∧
    Event.envClose ∈ (New o names).2 := by
  rcases hfail with ⟨e, he⟩ | ⟨e, he⟩
  · simp [New, hdup, hmk, hnew, hmax, hmap, hopen, he]
  · cases hrc : o.readerCheck with
    | error e2 => simp [New, hdup, hmk, hnew, hmax, hmap, hopen, hrc]
    | ok n =>
      cases hod : openDBIs o names with
      | mk r evs =>
        rw [hod] at he
        simp only at he
        subst he
        simp [New, hdup, hmk, hnew, hmax, hmap, hopen, hrc, hod]

/-- C2 amended witness: on an oracle where `ReaderCheck` fails after a
successful `Open`, `New` aborts, returns a non-nil error and closes the
environment handle. -/
theorem new_post_open_failure_closes_handle_witness :
    (hasDuplicate ["a"] = false ∧ oReaderFails.mkdirErr = none ∧
      oReaderFails.newEnvErr = none ∧ oReaderFails.setMaxDBsErr = none ∧
      oReaderFails.setMapSizeErr = none ∧ oReaderFails.openErr = none ∧
      oReaderFails.readerCheck = .error (.engine (.other 5))) ∧
    ((New oReaderFails ["a"]).1.1 = none ∧
      (New oReaderFails ["a"]).1.2.2 ≠ none ∧
      Event.envClose ∈ (New oReaderFails ["a"]).2) :=
  ⟨⟨by decide, rfl, rfl, rfl, rfl, rfl, rfl⟩,
    new_post_open_failure_closes_handle oReaderFails ["a"] (by decide)
      rfl rfl rfl rfl rfl (Or.inl ⟨.engine (.other 5), rfl⟩)⟩

/-- C9: whenever `New` returns a DB, that DB's pending-writes channel was
created with capacity exactly 1000, and the environment was configured —
before being opened — with `MaxDBs = len(dbNames)` and map size `MapSize`,
which equals 10 GiB = 10737418240 bytes. -/
theorem new_queue_capacity_and_env_config (o : Oracle) (names : List String)
    (db : DB) (n : Nat) (evs : List Event)
    (h : New o names = ((some db, n, none), evs)) :
    MapSize = 10737418240 ∧ db.uOpsCap = 1000 ∧
    evs.take 5 =
      [.mkdirAll, .newEnv, .setMaxDBs names.length, .setMapSize MapSize,
        .openEnv] := by
  refine ⟨by decide, ?_⟩
  unfold New at h
  split at h
  · simp at h
  split at h
  · simp at h
  split at h
  · simp at h
  split at h
  · simp at h
  split at h
  · simp at h
  split at h
  · simp at h
  split at h
  · simp at h
  split at h
  · simp at h
  rename_i reg evs2 heq
  obtain ⟨h1, h2⟩ := Prod.mk.injEq .. ▸ h
  obtain ⟨hdb, -, -⟩ := Prod.mk.injEq .. ▸ h1
  cases hdb
  cases h2
  exact ⟨rfl, rfl⟩

/-- The DB produced by a successful `New` over ["a", "b"] on the
all-successful oracle, used by the C9 witness. -/
def dbN : DB :=
  { env := { isOpen := true, data := [] }
    dbs := [("a", 1), ("b", 1)]
    uOpsCap := 1000
    pending := []
    closed := false
    closeDone := false
    envCloseCount := 0 }

/-- The engine events of that successful `New`, used by the C9 witness. -/
def evsN : List Event :=
  [.mkdirAll, .newEnv, .setMaxDBs 2, .setMapSize MapSize, .openEnv,
    .readerCheck, .createDBI "a", .createDBI "b", .startWorker]

/-- C9 witness: the concrete successful `New` over ["a", "b"] yields a DB
whose queue capacity is 1000, after configuring MaxDBs = 2 and the 10 GiB
map size before the open. -/
theorem new_queue_capacity_and_env_config_witness :
    New oOk ["a", "b"] = ((some dbN, 0, none), evsN) ∧
    (MapSize = 10737418240 ∧ dbN.uOpsCap = 1000 ∧
      evsN.take 5 =
        [.mkdirAll, .newEnv, .setMaxDBs (["a", "b"] : List String).length,
          .setMapSize MapSize, .openEnv]) :=
  ⟨rfl, new_queue_capacity_and_env_config oOk ["a", "b"] dbN 0 evsN rfl⟩

/-- Helper: if `txn.CreateDBI` fails for some name in the list, the
handle-opening loop of `New` stops with an error. -/
theorem openDBIs_error_of_mem (o : Oracle) (names : List String) (nm : String)
    (e0 : Err) (hmem : nm ∈ names) (hfail : o.createDBI nm = .error e0) :
    ∃ e, (openDBIs o names).1 = .error e := by
  induction names with
  | nil => cases hmem
  | cons n rest ih =>
    cases hn : o.createDBI n with
    | error e => exact ⟨e, by simp [openDBIs, hn]⟩
    | ok dbi =>
      rcases List.mem_cons.mp hmem with rfl | hmem2
      · rw [hn] at hfail; cases hfail
      · obtain ⟨e, he⟩ := ih hmem2
        refine ⟨e, ?_⟩
        cases hod : openDBIs o rest with
        | mk r evs =>
          rw [hod] at he; simp only at he; subst he
          simp [openDBIs, hn, hod, Except.map]

/-- C8: if, after a successful open and a reader check reclaiming `n` stale
readers, some per-database create-or-open transaction fails, then `New`
closes the environment handle, returns no DB, and returns the error
together with the stale-reader count `n` already obtained. -/
theorem new_dbi_failure_returns_stale_count (o : Oracle) (names : List String)
    (n : Nat) (hdup : hasDuplicate names = false)
    (hmk : o.mkdirErr = none) (hnew : o.newEnvErr = none)
    (hmax : o.setMaxDBsErr = none) (hmap : o.setMapSizeErr = none)
    (hopen : o.openErr = none) (hrc : o.readerCheck = .ok n)
    (nm : String) (e0 : Err) (hmem : nm ∈ names)
    (hfail : o.createDBI nm = .error e0) :
    ∃ e, (New o names).1 = (none, n, some e) ∧
      Event.envClose ∈ (New o names).2 := by
  obtain ⟨e, he⟩ := openDBIs_error_of_mem o names nm e0 hmem hfail
  refine ⟨e, ?_⟩
  cases hod : openDBIs o names with
  | mk r evs =>
    rw [hod] at he; simp only at he; subst he
    simp [New, hdup, hmk, hnew, hmax, hmap, hopen, hrc, hod]

/-- C8 witness: on an oracle reclaiming 3 stale readers whose `CreateDBI`
always fails, `New` over ["a"] returns no DB, the count 3 together with the
error, and closes the handle. -/
theorem new_dbi_failure_returns_stale_count_witness :
    (hasDuplicate ["a"] = false ∧ oCreateFails.readerCheck = .ok 3 ∧
      "a" ∈ (["a"] : List String) ∧
      oCreateFails.createDBI "a" = .error (.engine (.other 7))) ∧
    (∃ e, (New oCreateFails ["a"]).1 = (none, 3, some e) ∧
      Event.envClose ∈ (New oCreateFails ["a"]).2) :=
  ⟨⟨by decide, rfl, by decide, rfl⟩,
    new_dbi_failure_returns_stale_count oCreateFails ["a"] 3 (by decide)
      rfl rfl rfl rfl rfl rfl "a" (.engine (.other 7)) (by decide) rfl⟩

/-- C5: `Close` is idempotent. On a DB whose once-guard has not fired, one
call performs the whole teardown — sets the closed flag (so `Update`
thereafter fails fast with `ErrDBClosed`), drains the queue, and closes the
environment handle exactly once (`envCloseCount` grows by exactly 1) — and
a second `Close` is a no-op on the resulting state. -/
theorem close_idempotent_teardown_once (db : DB) (h : db.closeDone = false) :
    db.Close.closeDone = true ∧
    db.Close.closed = true ∧
    db.Close.pending = [] ∧
    db.Close.env.isOpen = false ∧
    db.Close.envCloseCount = db.envCloseCount + 1 ∧
    db.Close.Close = db.Close ∧
    (∀ op : TxnOp, (db.Close.Update op).1.2 = some .dbClosed) := by
  obtain ⟨env, dbs, cap, pending, closed, cd, cnt⟩ := db
  simp only at h
  subst h
  simp [DB.Close, DB.Update]

/-- C5 witness: closing the concrete live DB runs the teardown once, a
second close changes nothing, and subsequent updates fail fast. -/
theorem close_idempotent_teardown_once_witness :
    dbW.closeDone = false ∧
    (dbW.Close.closeDone = true ∧
    dbW.Close.closed = true ∧
    dbW.Close.pending = [] ∧
    dbW.Close.env.isOpen = false ∧
    dbW.Close.envCloseCount = dbW.envCloseCount + 1 ∧
    dbW.Close.Close = dbW.Close ∧
    (∀ op : TxnOp, (dbW.Close.Update op).1.2 = some .dbClosed)) :=
  ⟨rfl, close_idempotent_teardown_once dbW rfl⟩

/-- C4: submission through the write-coordinator queue is equivalent to a
direct write-transaction call. Whatever requests are already pending ahead
of a submitted operation, the worker's outcomes are those of the pending
requests followed by exactly the spec's direct write transaction
(`specWriteTxn`) run against the environment state left by them — nil when
that transaction commits, and otherwise the operation's own error. -/
theorem update_queue_refines_direct_txn (env : EnvState)
    (pending : List TxnOp) (op : TxnOp) :
    execOps env (pending ++ [op]) =
      ((specWriteTxn (execOps env pending).1 op).1,
        (execOps env pending).2 ++ [(specWriteTxn (execOps env pending).1 op).2]) ∧
    ((specWriteTxn (execOps env pending).1 op).2 = none ↔
      ∃ s, op (execOps env pending).1.data = .ok s) ∧
    (∀ e, (specWriteTxn (execOps env pending).1 op).2 = some e →
      op (execOps env pending).1.data = .error e ∧
      (specWriteTxn (execOps env pending).1 op).1 = (execOps env pending).1) := by
  refine ⟨?_, ?_, ?_⟩
  · induction pending generalizing env with
    | nil =>
      cases hop : op env.data <;>
        simp [execOps, specWriteTxn, EnvState.update, hop]
    | cons p rest ih =>
      simp only [List.cons_append, execOps]
      cases hp : env.update p with
      | mk env1 r => simp [ih env1]
  · cases hop : op (execOps env pending).1.data <;>
      simp [specWriteTxn, hop]
  · intro e
    cases hop : op (execOps env pending).1.data <;>
      simp [specWriteTxn, hop]

/-- Helper: one coordinator step preserves the FIFO/serialization
invariant. -/
theorem wstep_preserves_inv {s t : WState} (h : WStep s t)
    (hs : s.enqueued = s.executed ++ s.queue ∧ s.running.length ≤ 1) :
    t.enqueued = t.executed ++ t.queue ∧ t.running.length ≤ 1 := by
  obtain ⟨h1, h2⟩ := hs
  cases h with
  | enqueue i =>
    refine ⟨?_, h2⟩
    simp [h1, List.append_assoc]
  | start i rest hrun hq =>
    refine ⟨?_, by simp⟩
    simp [h1, hq, List.append_assoc]
  | finish i hrun =>
    exact ⟨h1, by simp⟩

/-- C3: in every state the coordinator can reach — under any interleaving
of concurrent producers enqueuing requests and the worker dequeuing them —
the history of executed requests followed by what still sits in the channel
is exactly the enqueue history (so the worker dequeues and starts requests
in precisely the order they were enqueued), and at most one request is
being executed at any instant. -/
theorem worker_fifo_single_flight (s : WState) (h : WReaches WInit s) :
    s.enqueued = s.executed ++ s.queue ∧ s.running.length ≤ 1 := by
  induction h with
  | refl => exact ⟨rfl, by simp [WInit]⟩
  | step hr hstep ih => exact wstep_preserves_inv hstep ih

/-- The coordinator state reached by: enqueue request 1, enqueue request 2,
worker starts and finishes request 1 — request 2 still queued. -/
def sW : WState := { queue := [2], running := [], enqueued := [1, 2], executed := [1] }

/-- C3 witness: a concrete interleaving — two producers enqueue requests 1
and 2, the worker executes request 1 to completion — reaches `sW`, where
the invariant instantiates to [1, 2] = [1] ++ [2] with nothing running. -/
theorem worker_fifo_single_flight_witness :
    WReaches WInit sW ∧
    (sW.enqueued = sW.executed ++ sW.queue ∧ sW.running.length ≤ 1) := by
  have hr : WReaches WInit sW :=
    .step
      (.step
        (.step
          (.step (.refl WInit) (WStep.enqueue WInit 1))
          (WStep.enqueue { WInit with queue := [1], enqueued := [1] } 2))
        (WStep.start
          { WInit with queue := [1, 2], enqueued := [1, 2] } 1 [2] rfl rfl))
      (WStep.finish
        { queue := [2], running := [1], enqueued := [1, 2], executed := [1] } 1 rfl)
  exact ⟨hr, worker_fifo_single_flight sW hr⟩

end Wrap
